import Mathlib

/-!
Verification of the Favorita hierarchical baselines notebook
(src/experiments/hierarchical_baselines/nbs/run_favorita_baselines.ipynb).

The notebook is sequential glue: it loads a long-format observation frame
for one item, splits each series into a train part and a test tail of
length horizon, fits StatsForecast models (cached on disk per item),
reconciles the base forecasts with a set of hierarchical baselines over
bootstrap seeds, reorders the frames to the canonical S_df.index ordering
and writes the reconciled frame to a per-item CSV.

We embed the frames as lists of rows, the file system as an association
list from path strings to file contents, and the external libraries
(StatsForecast, hierarchicalforecast) as abstract functions carried in an
environment record.  Dataframe operations (groupby tail, drop by index
label, category sort) are translated directly from their pandas semantics.
-/

namespace Favorita

/-- A row of the long observation frame `Y_df` after `load_item_data`
renames `hier_id` to `unique_id`: pandas index label, series id,
date stamp and observation value. -/
structure LRow where
  label : Nat
  uid : String
  ds : Nat
  y : Rat
deriving DecidableEq, Repr

/-- Number of rows of `df` belonging to series `u`. -/
def countUid (u : String) (df : List LRow) : Nat :=
  (df.filter (fun r => r.uid == u)).length

/-- The rows of `df` belonging to series `u`, in frame order
(`df[df.unique_id == u]`). -/
def seriesOf (u : String) (df : List LRow) : List LRow :=
  df.filter (fun r => r.uid == u)

/-- pandas `df.groupby(·unique_id·).tail(h)`: keeps, in frame order, the
rows that are among the last `h` rows of their series. -/
def groupbyTail (h : Nat) : List LRow → List LRow
  | [] => []
  | r :: rest =>
    if countUid r.uid rest < h then r :: groupbyTail h rest
    else groupbyTail h rest

/-- pandas `df.drop(labels)`: removes the rows whose index label occurs in
`labs`. -/
def dropLabels (labs : List Nat) (df : List LRow) : List LRow :=
  df.filter (fun r => !(decide (r.label ∈ labs)))

/-- The train/test split of `run_baselines`:
`Y_test_df = Y_df.groupby(·unique_id·).tail(horizon)` and
`Y_train_df = Y_df.drop(Y_test_df.index)`.
Returns `(Y_train_df, Y_test_df)`. -/
def trainTestSplit (h : Nat) (df : List LRow) : List LRow × List LRow :=
  let test := groupbyTail h df
  (dropLabels (test.map (fun r => r.label)) df, test)

theorem groupbyTail_sublist (h : Nat) : ∀ df : List LRow, List.Sublist (groupbyTail h df) df := by
  intro df
  induction df with
  | nil => simp [groupbyTail]
  | cons r rest ih =>
    by_cases hc : countUid r.uid rest < h
    · simpa [groupbyTail, hc] using ih.cons₂ r
    · simpa [groupbyTail, hc] using ih.cons r

theorem countUid_filter_self (u : String) (l : List LRow) :
    countUid u (l.filter (fun r => r.uid == u)) = countUid u l := by
  unfold countUid
  rw [List.filter_filter]
  simp

theorem groupbyTail_filter (h : Nat) (u : String) (df : List LRow) :
    (groupbyTail h df).filter (fun r => r.uid == u)
      = groupbyTail h (df.filter (fun r => r.uid == u)) := by
  induction df with
  | nil => simp [groupbyTail]
  | cons r rest ih =>
    by_cases hu : r.uid = u
    · subst hu
      have hcnt : countUid r.uid (rest.filter (fun x => x.uid == r.uid)) = countUid r.uid rest :=
        countUid_filter_self r.uid rest
      by_cases hc : countUid r.uid rest < h
      · simp [groupbyTail, hc, hcnt, List.filter_cons, ih]
      · simp [groupbyTail, hc, hcnt, List.filter_cons, ih]
    · have hne : (r.uid == u) = false := by simp [hu]
      by_cases hc : countUid r.uid rest < h
      · simp [groupbyTail, hc, List.filter_cons, hne, ih]
      · simp [groupbyTail, hc, List.filter_cons, hne, ih]

theorem groupbyTail_uniform (h : Nat) (u : String) (l : List LRow)
    (hl : ∀ r ∈ l, r.uid = u) :
    groupbyTail h l = l.drop (l.length - h) := by
  induction l with
  | nil => simp [groupbyTail]
  | cons r rest ih =>
    have hr : r.uid = u := hl r (List.mem_cons_self r rest)
    have hrest : ∀ x ∈ rest, x.uid = u := fun x hx => hl x (List.mem_cons_of_mem r hx)
    have hcnt : countUid r.uid rest = rest.length := by
      unfold countUid
      have : rest.filter (fun x => x.uid == r.uid) = rest := by
        apply List.filter_eq_self.mpr
        intro x hx
        simp [hrest x hx, hr]
      rw [this]
    by_cases hc : rest.length < h
    · have h1 : rest.length + 1 - h = 0 := by omega
      have h2 : rest.length - h = 0 := by omega
      simp [groupbyTail, hcnt, hc, h1]
      rw [ih hrest, h2, List.drop_zero]
    · have h1 : rest.length + 1 - h = (rest.length - h) + 1 := by omega
      simp [groupbyTail, hcnt, hc, h1]
      rw [ih hrest]

theorem seriesOf_groupbyTail (h : Nat) (u : String) (df : List LRow) :
    seriesOf u (groupbyTail h df)
      = (seriesOf u df).drop ((seriesOf u df).length - h) := by
  unfold seriesOf
  rw [groupbyTail_filter]
  exact groupbyTail_uniform h u _ (by intro r hr; simpa using (List.of_mem_filter hr))

theorem sublist_filter_mem {l₁ l₂ : List LRow} (hs : List.Sublist l₁ l₂) (hn : l₂.Nodup) :
    l₂.filter (fun r => decide (r ∈ l₁)) = l₁ := by
  induction hs with
  | slnil => simp
  | @cons l₁ l₂ a hs ih =>
    have hn2 : l₂.Nodup := (List.nodup_cons.mp hn).2
    have ha : a ∉ l₂ := (List.nodup_cons.mp hn).1
    have hal : a ∉ l₁ := fun hmem => ha (hs.subset hmem)
    simp only [List.filter_cons, decide_eq_true_eq]
    rw [if_neg (by simpa using hal)]
    exact ih hn2
  | @cons₂ l₁ l₂ a hs ih =>
    have hn2 : l₂.Nodup := (List.nodup_cons.mp hn).2
    have ha : a ∉ l₂ := (List.nodup_cons.mp hn).1
    simp only [List.filter_cons, decide_eq_true_eq]
    rw [if_pos (List.mem_cons_self a l₁)]
    have : l₂.filter (fun r => decide (r ∈ a :: l₁)) = l₂.filter (fun r => decide (r ∈ l₁)) := by
      apply List.filter_congr
      intro x hx
      have hxa : x ≠ a := fun hxa => ha (hxa ▸ hx)
      simp [List.mem_cons, hxa]
    rw [this, ih hn2]

/-- The distinct series identifiers appearing in a frame. -/
def uidsOf (df : List LRow) : List String :=
  (df.map (fun r => r.uid)).dedup

theorem label_mem_test_iff {df test : List LRow}
    (hs : List.Sublist test df) (hlab : (df.map (fun r => r.label)).Nodup)
    {r : LRow} (hr : r ∈ df) :
    r.label ∈ test.map (fun t => t.label) ↔ r ∈ test := by
  constructor
  · intro hx
    rcases List.mem_map.mp hx with ⟨t, ht, hlbl⟩
    have htdf : t ∈ df := hs.subset ht
    have : t = r := List.inj_on_of_nodup_map hlab htdf hr hlbl
    exact this ▸ ht
  · intro hmem
    exact List.mem_map_of_mem _ hmem

/-- With distinct index labels, dropping the test labels is the same as
filtering out the test rows themselves. -/
theorem dropLabels_test_eq_filter {df : List LRow} (h : Nat)
    (hlab : (df.map (fun r => r.label)).Nodup) :
    dropLabels ((groupbyTail h df).map (fun r => r.label)) df
      = df.filter (fun r => !(decide (r ∈ groupbyTail h df))) := by
  unfold dropLabels
  apply List.filter_congr
  intro r hr
  have := label_mem_test_iff (groupbyTail_sublist h df) hlab hr
  rw [decide_eq_decide.mpr this]

/-- The full specification of the train/test split: the test frame holds,
for each series, exactly its last rows (all rows past length minus
horizon); with at least `h` observations per series the test part of each
series has length exactly `h`; test and train together are a permutation
of the whole frame; and the two frames are disjoint. -/
def SplitSpec (h : Nat) (df : List LRow) : Prop :=
  (∀ u : String, seriesOf u (trainTestSplit h df).2
      = (seriesOf u df).drop ((seriesOf u df).length - h))
  ∧ (∀ u ∈ uidsOf df, (seriesOf u (trainTestSplit h df).2).length = h)
  ∧ List.Perm ((trainTestSplit h df).2 ++ (trainTestSplit h df).1) df
  ∧ (∀ r ∈ (trainTestSplit h df).1, r ∉ (trainTestSplit h df).2)

/-- C1: the train/test split puts, for each series, exactly the last
`horizon` observations into the test frame; the train frame is the
remaining rows; the frames are disjoint and their union is the full
observation table. -/
theorem trainTestSplit_correct (h : Nat) (df : List LRow)
    (hlab : (df.map (fun r => r.label)).Nodup)
    (hcnt : ∀ u ∈ uidsOf df, h ≤ countUid u df) :
    SplitSpec h df := by
  have hsub := groupbyTail_sublist h df
  have hdf : df.Nodup := hlab.of_map _
  have htest : (trainTestSplit h df).2 = groupbyTail h df := rfl
  have htrain : (trainTestSplit h df).1
      = dropLabels ((groupbyTail h df).map (fun r => r.label)) df := rfl
  refine ⟨?_, ?_, ?_, ?_⟩
  · intro u
    rw [htest]
    exact seriesOf_groupbyTail h u df
  · intro u hu
    rw [htest, seriesOf_groupbyTail h u df]
    have hlen : (seriesOf u df).length = countUid u df := rfl
    have hh : h ≤ (seriesOf u df).length := by rw [hlen]; exact hcnt u hu
    rw [List.length_drop]
    omega
  · rw [htest, htrain, dropLabels_test_eq_filter h hlab]
    have hfix : groupbyTail h df = df.filter (fun r => decide (r ∈ groupbyTail h df)) :=
      (sublist_filter_mem hsub hdf).symm
    have hperm : List.Perm
        (df.filter (fun r => decide (r ∈ groupbyTail h df))
          ++ df.filter (fun r => !(decide (r ∈ groupbyTail h df)))) df :=
      List.filter_append_perm _ df
    nth_rewrite 1 [hfix]
    exact hperm
  · intro r hr hmem
    rw [htrain, dropLabels_test_eq_filter h hlab] at hr
    have := List.of_mem_filter hr
    rw [htest] at hmem
    simp [hmem] at this

/-- Position of a series id in the categorical ordering given by
`S_df.index` (pandas `cat.set_categories(S_df.index)`); ids absent from
the index sort last, as pandas sorts missing categories last. -/
def idxIn (u : String) : List String → Nat
  | [] => 0
  | s :: rest => if s == u then 0 else idxIn u rest + 1

/-- Lexicographic order on (category rank, date) sort keys. -/
def keyLe2 (p q : Nat × Nat) : Prop :=
  p.1 < q.1 ∨ (p.1 = q.1 ∧ p.2 ≤ q.2)

instance keyLe2.decRel : DecidableRel keyLe2 := fun p q =>
  decidable_of_iff (p.1 < q.1 ∨ (p.1 = q.1 ∧ p.2 ≤ q.2)) Iff.rfl

theorem keyLe2_total (p q : Nat × Nat) : keyLe2 p q ∨ keyLe2 q p := by
  unfold keyLe2; omega

theorem keyLe2_trans {p q s : Nat × Nat} (h1 : keyLe2 p q) (h2 : keyLe2 q s) : keyLe2 p s := by
  unfold keyLe2 at *; omega

/-- Sort key of `sort_values(by=[·unique_id·, ·ds·])` under the category
ordering of `S_df.index`. -/
def rowKey (sIndex : List String) (r : LRow) : Nat × Nat :=
  (idxIn r.uid sIndex, r.ds)

/-- Row ordering used by `_sort_hier_df` and by the test-frame reordering
in `run_baselines`: by position of `unique_id` in `S_df.index`, then by
`ds`. -/
def rowLe (sIndex : List String) (a b : LRow) : Prop :=
  keyLe2 (rowKey sIndex a) (rowKey sIndex b)

instance rowLe.decRel (sIndex : List String) : DecidableRel (rowLe sIndex) := fun a b =>
  keyLe2.decRel _ _

/-- `_sort_hier_df`: sorts the frame by `unique_id` under the category
order of `S_df.index`, then by `ds`. -/
def sortHierDf (sIndex : List String) (df : List LRow) : List LRow :=
  List.insertionSort (rowLe sIndex) df

theorem sortHierDf_sorted (sIndex : List String) (df : List LRow) :
    List.Sorted (rowLe sIndex) (sortHierDf sIndex df) := by
  letI : IsTotal LRow (rowLe sIndex) :=
    ⟨fun a b => keyLe2_total (rowKey sIndex a) (rowKey sIndex b)⟩
  letI : IsTrans LRow (rowLe sIndex) := ⟨fun _ _ _ => keyLe2_trans⟩
  exact List.sorted_insertionSort (rowLe sIndex) df

theorem sortHierDf_perm (sIndex : List String) (df : List LRow) :
    List.Perm (sortHierDf sIndex df) df :=
  List.perm_insertionSort (rowLe sIndex) df

/-- Pointwise noise addition: row `j` (zero-based, counting from `i`)
receives `noise (i + j)` added to its `y` value.  This models
`Y_df.y + np.random.normal(loc=0, scale=0.01, size=len(Y_df))` with the
drawn noise vector abstracted into the function `noise`. -/
def addNoiseFrom (noise : Nat → Rat) (i : Nat) : List LRow → List LRow
  | [] => []
  | r :: rest => { r with y := r.y + noise i } :: addNoiseFrom noise (i + 1) rest

def addNoise (noise : Nat → Rat) (df : List LRow) : List LRow :=
  addNoiseFrom noise 0 df

theorem addNoiseFrom_length (noise : Nat → Rat) (i : Nat) (l : List LRow) :
    (addNoiseFrom noise i l).length = l.length := by
  induction l generalizing i with
  | nil => rfl
  | cons r rest ih => simp [addNoiseFrom, ih]

theorem addNoiseFrom_get (noise : Nat → Rat) (i : Nat) (l : List LRow)
    (j : Nat) (hj : j < (addNoiseFrom noise i l).length) :
    (addNoiseFrom noise i l).get ⟨j, hj⟩
      = { l.get ⟨j, by rw [addNoiseFrom_length] at hj; exact hj⟩ with
          y := (l.get ⟨j, by rw [addNoiseFrom_length] at hj; exact hj⟩).y + noise (i + j) } := by
  induction l generalizing i j with
  | nil => simp [addNoiseFrom] at hj
  | cons r rest ih =>
    cases j with
    | zero => simp [addNoiseFrom]
    | succ j =>
      have hj2 : j < (addNoiseFrom noise (i + 1) rest).length := by
        simpa [addNoiseFrom] using hj
      have := ih (i + 1) j hj2
      simp only [addNoiseFrom, List.get_cons_succ]
      rw [this]
      have harith : i + 1 + j = i + (j + 1) := by omega
      simp [harith]

theorem addNoiseFrom_strip (noise : Nat → Rat) (i : Nat) (l : List LRow) :
    (addNoiseFrom noise i l).map (fun r => (r.label, r.uid, r.ds))
      = l.map (fun r => (r.label, r.uid, r.ds)) := by
  induction l generalizing i with
  | nil => rfl
  | cons r rest ih => simp [addNoiseFrom, ih]

theorem addNoiseFrom_sorted (sIndex : List String) (noise : Nat → Rat) (i : Nat)
    {l : List LRow} (hl : List.Sorted (rowLe sIndex) l) :
    List.Sorted (rowLe sIndex) (addNoiseFrom noise i l) := by
  induction l generalizing i with
  | nil => exact List.sorted_nil
  | cons r rest ih =>
    rcases List.sorted_cons.mp hl with ⟨hhead, htail⟩
    apply List.sorted_cons.mpr
    refine ⟨?_, ih (i + 1) htail⟩
    intro b hb
    have : ∃ c ∈ rest, b.uid = c.uid ∧ b.ds = c.ds := by
      clear hhead htail ih hl
      induction rest generalizing i with
      | nil => simp [addNoiseFrom] at hb
      | cons c rest2 ih2 =>
        simp only [addNoiseFrom, List.mem_cons] at hb
        rcases hb with hb | hb
        · exact ⟨c, List.mem_cons_self c rest2, by simp [hb], by simp [hb]⟩
        · rcases ih2 (i + 1) hb with ⟨c2, hc2, he⟩
          exact ⟨c2, List.mem_cons_of_mem c hc2, he⟩
    rcases this with ⟨c, hc, hu, hd⟩
    have := hhead c hc
    simpa [rowLe, rowKey, hu, hd] using this

/-- A row of the base-forecast frame `Y_hat_df` (and of the fitted-values
frame `Y_fitted_df`): series id, date and the numeric columns (point
forecast plus the interval columns for the levels in `LEVEL`). -/
structure HatRow where
  uid : String
  ds : Nat
  vals : List Rat
deriving DecidableEq, Repr

/-- A row of the reconciled frame produced by `bootstrap_reconcile`:
bootstrap seed, series id, date, and the reconciled numeric columns. -/
structure RecRow where
  seed : Nat
  uid : String
  ds : Nat
  vals : List Rat
deriving DecidableEq, Repr

/-- The hierarchicalforecast reconciliation methods instantiated by
`run_baselines`. -/
inductive Reconciler where
  | bottomUp : Reconciler
  | topDown (method : String) : Reconciler
  | minTrace (method : String) (mintShrRidge : Option Rat) : Reconciler
  | erm (method : String) : Reconciler
deriving DecidableEq, Repr

def avgPropStr : String := "average_proportions"
def propAvgStr : String := "proportion_averages"
def olsStr : String := "ols"
def mintShrinkStr : String := "mint_shrink"
def closedStr : String := "closed"

/-- The reconciler set chosen by `run_baselines` from the value of
`is_strictly_hierarchical`: the strictly hierarchical branch includes the
two TopDown variants, the other branch omits them. -/
def selectReconcilers (strict : Bool) : List Reconciler :=
  if strict then
    [ Reconciler.bottomUp,
      Reconciler.topDown avgPropStr,
      Reconciler.topDown propAvgStr,
      Reconciler.minTrace olsStr none,
      Reconciler.minTrace mintShrinkStr (some (1 / 1000000)),
      Reconciler.erm closedStr ]
  else
    [ Reconciler.bottomUp,
      Reconciler.minTrace olsStr none,
      Reconciler.minTrace mintShrinkStr (some (1 / 1000000)),
      Reconciler.erm closedStr ]

/-- The environment: the data the notebook reads and the external library
routines it calls, abstracted as functions.  `storedRows` is the
observation frame for the selected item (after the `item_id` filter and
the `hier_id` to `unique_id` rename) as stored on disk, before the noise
augmentation.  `strictlyHier` is the value of
`is_strictly_hierarchical(S, tags)`, a hierarchicalforecast routine whose
code is outside this repository snapshot. -/
structure Env where
  storedRows : List LRow
  sIndex : List String
  sCols : List String
  horizon : Nat
  seasonality : Nat
  strictlyHier : Bool
  forecastFn : List LRow → Nat → List HatRow
  fittedFn : List LRow → List HatRow
  recVals : List Reconciler → String → List HatRow → Nat → Nat → String → Nat → List Rat

/-- `load_item_data`: loads the stored frame for the item, sorts it to
the `S_df.index` category order with `_sort_hier_df`, and augments the
observations with the freshly drawn noise vector (the random draw is the
`noise` parameter). -/
def load_item_data (env : Env) (noise : Nat → Rat) : List LRow :=
  addNoise noise (sortHierDf env.sIndex env.storedRows)

/-- Contents of the files the notebook reads and writes. -/
inductive FsFile where
  | hatF (rows : List HatRow) : FsFile
  | fitF (rows : List HatRow) : FsFile
  | recF (rows : List RecRow) : FsFile
deriving DecidableEq, Repr

/-- The on-disk state: an association list from path to file contents. -/
abbrev FS : Type := List (String × FsFile)

def lookupFS (fs : FS) (p : String) : Option FsFile :=
  match fs with
  | [] => none
  | (q, f) :: rest => if q = p then some f else lookupFS rest p

/-- Writing a file: replaces any previous contents at the path. -/
def writeFS (fs : FS) (p : String) (f : FsFile) : FS :=
  (p, f) :: (fs.filter (fun e => !(decide (e.1 = p))))

theorem lookupFS_writeFS_self (fs : FS) (p : String) (f : FsFile) :
    lookupFS (writeFS fs p f) p = some f := by
  simp [writeFS, lookupFS]

theorem lookupFS_filter_ne (fs : FS) (p q : String) (hne : q ≠ p) :
    lookupFS (fs.filter (fun e => !(decide (e.1 = p)))) q = lookupFS fs q := by
  induction fs with
  | nil => rfl
  | cons e rest ih =>
    cases e with
    | mk e1 e2 =>
      by_cases hep : e1 = p
      · have h1 : e1 ≠ q := by rw [hep]; exact fun h => hne h.symm
        have h2 : p ≠ q := fun h => hne h.symm
        simp [List.filter_cons, hep, lookupFS, h1, h2, ih]
      · simp [List.filter_cons, hep, lookupFS, ih]

theorem lookupFS_writeFS_ne (fs : FS) (p q : String) (f : FsFile) (hne : q ≠ p) :
    lookupFS (writeFS fs p f) q = lookupFS fs q := by
  simp only [writeFS, lookupFS]
  rw [if_neg (fun h => hne h.symm)]
  exact lookupFS_filter_ne fs p q hne

def itemPath (dataset item_id : String) : String :=
  "./data/" ++ dataset ++ "/" ++ item_id

def yhatPath (dataset item_id : String) : String :=
  itemPath dataset item_id ++ ("/" ++ "Y_hat.csv")

def yfittedPath (dataset item_id : String) : String :=
  itemPath dataset item_id ++ ("/" ++ "Y_fitted.csv")

def yrecPath (dataset item_id im : String) : String :=
  itemPath dataset item_id ++ ("/" ++ (im ++ "_rec.csv"))

/-- The StatsForecast models the notebook instantiates. -/
inductive SfModel where
  | autoARIMA (seasonLength : Nat) : SfModel
  | naive : SfModel
deriving DecidableEq, Repr

/-- The constructor arguments of the `StatsForecast(...)` call in the
cache-miss branch: the frame it fits (one model per `unique_id` in it),
the model list, the fallback model list, and the forecast horizon. -/
structure SfCall where
  df : List LRow
  models : List SfModel
  fallback : List SfModel
  h : Nat
deriving DecidableEq, Repr

/-- Modelled from the spec: the code of
`HierarchicalReconciliation.bootstrap_reconcile` (hierarchicalforecast
core) is not part of this snapshot; per the spec it produces reconciled
point and interval forecasts via bootstrap resampling across multiple
random seeds.  We model it as one reconciliation pass per seed in
`range numSeeds`, producing one output row per base-forecast row, tagged
with the seed; the reconciled numeric columns are abstracted into
`env.recVals`. -/
def bootstrap_reconcile (env : Env) (recs : List Reconciler) (im : String)
    (yhat yfitted : List HatRow) (numSamples numSeeds : Nat) : List RecRow :=
  (List.range numSeeds).flatMap (fun s =>
    yhat.map (fun r =>
      { seed := s, uid := r.uid, ds := r.ds,
        vals := env.recVals recs im yfitted numSamples s r.uid r.ds }))

/-- Lexicographic order on (seed, category rank, date) keys, used for the
reconciled frame, which is sorted by seed first. -/
def keyLe3 (p q : Nat × Nat × Nat) : Prop :=
  p.1 < q.1 ∨ (p.1 = q.1 ∧ keyLe2 p.2 q.2)

instance keyLe3.decRel : DecidableRel keyLe3 := fun p q =>
  decidable_of_iff (p.1 < q.1 ∨ (p.1 = q.1 ∧ keyLe2 p.2 q.2)) Iff.rfl

theorem keyLe3_total (p q : Nat × Nat × Nat) : keyLe3 p q ∨ keyLe3 q p := by
  unfold keyLe3 keyLe2; omega

theorem keyLe3_trans {p q s : Nat × Nat × Nat} (h1 : keyLe3 p q) (h2 : keyLe3 q s) :
    keyLe3 p s := by
  unfold keyLe3 keyLe2 at *; omega

/-- Ordering of the reconciled frame after
`sort_values(by=[·seed·, ·unique_id·, ·ds·])`. -/
def recLe (sIndex : List String) (a b : RecRow) : Prop :=
  keyLe3 (a.seed, idxIn a.uid sIndex, a.ds) (b.seed, idxIn b.uid sIndex, b.ds)

instance recLe.decRel (sIndex : List String) : DecidableRel (recLe sIndex) := fun a b =>
  keyLe3.decRel _ _

/-- Everything `run_baselines` computes, besides the on-disk effects:
the three returned frames, the final file system, whether the model
fitting branch ran and with which `StatsForecast` call, the base
forecast and fitted frames it used, the chosen reconcilers, and the
seed/sample counts passed to `bootstrap_reconcile`. -/
structure RunResult where
  recOut : List RecRow
  test : List LRow
  train : List LRow
  fs : FS
  didFit : Bool
  fitCall : Option SfCall
  hatUsed : List HatRow
  fittedUsed : List HatRow
  reconcilers : List Reconciler
  numSeedsUsed : Nat
  numSamplesUsed : Nat

/-- The body of `run_baselines`: load and split the data, obtain base
forecasts from the per-item cache or by fitting, reconcile over 10
bootstrap seeds, reorder the frames to the `S_df.index` ordering and
write the reconciled frame.  Returns `none` where the python code would
raise (cache file of the wrong shape or missing fitted file). -/
def run_baselines (env : Env) (noise : Nat → Rat) (im item_id dataset : String)
    (fs : FS) : Option RunResult :=
  let Y_df := load_item_data env noise
  let split := trainTestSplit env.horizon Y_df
  let Y_train := split.1
  let Y_test := split.2
  let yhatF := yhatPath dataset item_id
  let yfittedF := yfittedPath dataset item_id
  let yrecF := yrecPath dataset item_id im
  let fitStep : Option (List HatRow × List HatRow × FS × Bool × Option SfCall) :=
    match lookupFS fs yhatF with
    | some f =>
      match f, lookupFS fs yfittedF with
      | FsFile.hatF hrows, some (FsFile.fitF frows) => some (hrows, frows, fs, false, none)
      | _, _ => none
    | none =>
      let call : SfCall :=
        { df := Y_train,
          models := [ SfModel.autoARIMA env.seasonality ],
          fallback := [ SfModel.naive ],
          h := env.horizon }
      let hrows := env.forecastFn Y_train env.horizon
      let frows := env.fittedFn Y_train
      let fs1 := writeFS fs yhatF (FsFile.hatF hrows)
      let fs2 := writeFS fs1 yfittedF (FsFile.fitF frows)
      some (hrows, frows, fs2, true, some call)
  match fitStep with
  | none => none
  | some (hrows, frows, fs2, didFit, call) =>
    let recs := selectReconcilers env.strictlyHier
    let recRaw := bootstrap_reconcile env recs im hrows frows 10 10
    let testSorted := List.insertionSort (rowLe env.sIndex) Y_test
    let recSorted := List.insertionSort (recLe env.sIndex) recRaw
    let fs3 := writeFS fs2 yrecF (FsFile.recF recSorted)
    some
      { recOut := recSorted, test := testSorted, train := Y_train, fs := fs3,
        didFit := didFit, fitCall := call, hatUsed := hrows, fittedUsed := frows,
        reconcilers := recs, numSeedsUsed := 10, numSamplesUsed := 10 }

def bootstrapStr : String := "bootstrap"
def normalityStr : String := "normality"
def permbuStr : String := "permbu"

def validIntervalsMethods : List String :=
  [ bootstrapStr, normalityStr, permbuStr ]

def availableDatasets : List String :=
  [ "Favorita200", "Favorita500", "FavoritaComplete" ]

def intervalsAssertMsg : String :=
  "Select --intervals_method from [bootstrap, normality, permbu]"

def datasetAssertMsg : String :=
  "Select --dataset from [Favorita200, Favorita500, FavoritaComplete]"

/-- The per-item experiment loop of the top-level script. -/
def runItems (env : Env) (noiseFor : String → Nat → Rat) (im dataset : String)
    (items : List String) (fs : FS) : Option (List RunResult × FS) :=
  match items with
  | [] => some ([], fs)
  | it :: rest =>
    match run_baselines env (noiseFor it) im it dataset fs with
    | none => none
    | some res =>
      match runItems env noiseFor im dataset rest res.fs with
      | none => none
      | some (others, fsEnd) => some (res :: others, fsEnd)

/-- The top-level script: validates `intervals_method` and `dataset`
with the two module-level asserts, in that order, then runs
`run_baselines` for every item.  An invalid parameter yields the
AssertionError before any experiment runs. -/
def scriptMain (env : Env) (noiseFor : String → Nat → Rat) (im dataset : String)
    (items : List String) (fs : FS) : Except String (List RunResult × FS) :=
  if im ∈ validIntervalsMethods then
    if dataset ∈ availableDatasets then
      match runItems env noiseFor im dataset items fs with
      | some r => Except.ok r
      | none => Except.error "runtime failure"
    else Except.error datasetAssertMsg
  else Except.error intervalsAssertMsg

/-- The train/test split as computed inside `run_baselines`. -/
def splitOf (env : Env) (noise : Nat → Rat) : List LRow × List LRow :=
  trainTestSplit env.horizon (load_item_data env noise)

/-- The reconciled frame as computed inside `run_baselines`: the
bootstrap reconciliation over 10 seeds and 10 samples, reordered by
(seed, series, date). -/
def recStage (env : Env) (im : String) (hrows frows : List HatRow) : List RecRow :=
  List.insertionSort (recLe env.sIndex)
    (bootstrap_reconcile env (selectReconcilers env.strictlyHier) im hrows frows 10 10)

/-- The result record of a cache-hit run. -/
def cacheHitResult (env : Env) (noise : Nat → Rat) (im item_id dataset : String)
    (fs : FS) (hrows frows : List HatRow) : RunResult :=
  { recOut := recStage env im hrows frows,
    test := List.insertionSort (rowLe env.sIndex) (splitOf env noise).2,
    train := (splitOf env noise).1,
    fs := writeFS fs (yrecPath dataset item_id im) (FsFile.recF (recStage env im hrows frows)),
    didFit := false, fitCall := none, hatUsed := hrows, fittedUsed := frows,
    reconcilers := selectReconcilers env.strictlyHier,
    numSeedsUsed := 10, numSamplesUsed := 10 }

/-- The result record of a cache-miss run. -/
def cacheMissResult (env : Env) (noise : Nat → Rat) (im item_id dataset : String)
    (fs : FS) : RunResult :=
  let hrows := env.forecastFn (splitOf env noise).1 env.horizon
  let frows := env.fittedFn (splitOf env noise).1
  let fs2 := writeFS (writeFS fs (yhatPath dataset item_id) (FsFile.hatF hrows))
      (yfittedPath dataset item_id) (FsFile.fitF frows)
  { recOut := recStage env im hrows frows,
    test := List.insertionSort (rowLe env.sIndex) (splitOf env noise).2,
    train := (splitOf env noise).1,
    fs := writeFS fs2 (yrecPath dataset item_id im) (FsFile.recF (recStage env im hrows frows)),
    didFit := true,
    fitCall := some
      { df := (splitOf env noise).1,
        models := [ SfModel.autoARIMA env.seasonality ],
        fallback := [ SfModel.naive ],
        h := env.horizon },
    hatUsed := hrows, fittedUsed := frows,
    reconcilers := selectReconcilers env.strictlyHier,
    numSeedsUsed := 10, numSamplesUsed := 10 }

theorem run_baselines_cacheHit (env : Env) (noise : Nat → Rat)
    (im item_id dataset : String) (fs : FS) (hrows frows : List HatRow)
    (hhat : lookupFS fs (yhatPath dataset item_id) = some (FsFile.hatF hrows))
    (hfit : lookupFS fs (yfittedPath dataset item_id) = some (FsFile.fitF frows)) :
    run_baselines env noise im item_id dataset fs
      = some (cacheHitResult env noise im item_id dataset fs hrows frows) := by
  simp only [run_baselines, hhat, hfit]
  rfl

theorem run_baselines_cacheMiss (env : Env) (noise : Nat → Rat)
    (im item_id dataset : String) (fs : FS)
    (hhat : lookupFS fs (yhatPath dataset item_id) = none) :
    run_baselines env noise im item_id dataset fs
      = some (cacheMissResult env noise im item_id dataset fs) := by
  simp only [run_baselines, hhat]
  rfl

/-- Any successful run is either a cache hit on well-formed cache files
or a cache miss. -/
theorem run_some_cases (env : Env) (noise : Nat → Rat)
    (im item_id dataset : String) (fs : FS) (res : RunResult)
    (hrun : run_baselines env noise im item_id dataset fs = some res) :
    (lookupFS fs (yhatPath dataset item_id) = none
      ∧ res = cacheMissResult env noise im item_id dataset fs)
    ∨ (∃ hrows frows,
        lookupFS fs (yhatPath dataset item_id) = some (FsFile.hatF hrows)
        ∧ lookupFS fs (yfittedPath dataset item_id) = some (FsFile.fitF frows)
        ∧ res = cacheHitResult env noise im item_id dataset fs hrows frows) := by
  cases hlook : lookupFS fs (yhatPath dataset item_id) with
  | none =>
    left
    refine ⟨rfl, ?_⟩
    rw [run_baselines_cacheMiss env noise im item_id dataset fs hlook] at hrun
    exact (Option.some.inj hrun).symm
  | some f =>
    right
    cases hlook2 : lookupFS fs (yfittedPath dataset item_id) with
    | none =>
      cases f <;> simp [run_baselines, hlook, hlook2] at hrun
    | some f2 =>
      cases f with
      | hatF hrows =>
        cases f2 with
        | hatF x => simp [run_baselines, hlook, hlook2] at hrun
        | fitF frows =>
          refine ⟨hrows, frows, rfl, rfl, ?_⟩
          rw [run_baselines_cacheHit env noise im item_id dataset fs hrows frows hlook hlook2]
            at hrun
          exact (Option.some.inj hrun).symm
        | recF x => simp [run_baselines, hlook, hlook2] at hrun
      | fitF x => simp [run_baselines, hlook, hlook2] at hrun
      | recF x => simp [run_baselines, hlook, hlook2] at hrun

/-- C2: model fitting runs exactly when the cached forecast file is
absent; when the cache files are present the base forecasts and fitted
values used are their contents read back from disk. -/
theorem fit_iff_cache_missing (env : Env) (noise : Nat → Rat)
    (im item_id dataset : String) (fs : FS) (res : RunResult)
    (hrun : run_baselines env noise im item_id dataset fs = some res) :
    (res.didFit = true ↔ lookupFS fs (yhatPath dataset item_id) = none)
    ∧ (∀ hrows frows,
        lookupFS fs (yhatPath dataset item_id) = some (FsFile.hatF hrows) →
        lookupFS fs (yfittedPath dataset item_id) = some (FsFile.fitF frows) →
        res.hatUsed = hrows ∧ res.fittedUsed = frows ∧ res.didFit = false) := by
  rcases run_some_cases env noise im item_id dataset fs res hrun with
    ⟨hlook, rfl⟩ | ⟨hrows, frows, hlook, hlook2, rfl⟩
  · constructor
    · simp [cacheMissResult, hlook]
    · intro hrows frows hh _
      rw [hlook] at hh
      exact absurd hh (by simp)
  · constructor
    · simp [cacheHitResult, hlook]
    · intro hrows2 frows2 hh hf
      rw [hlook] at hh
      rw [hlook2] at hf
      have h1 : hrows = hrows2 := by
        have := Option.some.inj hh
        cases this
        rfl
      have h2 : frows = frows2 := by
        have := Option.some.inj hf
        cases this
        rfl
      subst h1
      subst h2
      exact ⟨rfl, rfl, rfl⟩

/-- Whether a reconciler is one of the two TopDown variants. -/
def isTopDownRec : Reconciler → Bool
  | Reconciler.topDown _ => true
  | _ => false

/-- C3: the reconciler set depends only on `is_strictly_hierarchical`:
with a strictly hierarchical structure it is BottomUp, the two TopDown
variants, MinTrace(ols), MinTrace(mint_shrink) and ERM(closed); otherwise
it is the same list with the two TopDown variants removed. -/
theorem reconcilers_depend_only_on_strictness (env : Env) (noise : Nat → Rat)
    (im item_id dataset : String) (fs : FS) (res : RunResult)
    (hrun : run_baselines env noise im item_id dataset fs = some res) :
    res.reconcilers = selectReconcilers env.strictlyHier
    ∧ selectReconcilers true
        = [ Reconciler.bottomUp,
            Reconciler.topDown avgPropStr,
            Reconciler.topDown propAvgStr,
            Reconciler.minTrace olsStr none,
            Reconciler.minTrace mintShrinkStr (some (1 / 1000000)),
            Reconciler.erm closedStr ]
    ∧ selectReconcilers false
        = [ Reconciler.bottomUp,
            Reconciler.minTrace olsStr none,
            Reconciler.minTrace mintShrinkStr (some (1 / 1000000)),
            Reconciler.erm closedStr ]
    ∧ selectReconcilers false
        = (selectReconcilers true).filter (fun r => !(isTopDownRec r)) := by
  refine ⟨?_, rfl, rfl, rfl⟩
  rcases run_some_cases env noise im item_id dataset fs res hrun with
    ⟨_, rfl⟩ | ⟨hrows, frows, _, _, rfl⟩
  · rfl
  · rfl

theorem insertionSort_rowLe_sorted (sIndex : List String) (l : List LRow) :
    List.Sorted (rowLe sIndex) (List.insertionSort (rowLe sIndex) l) := by
  letI : IsTotal LRow (rowLe sIndex) :=
    ⟨fun a b => keyLe2_total (rowKey sIndex a) (rowKey sIndex b)⟩
  letI : IsTrans LRow (rowLe sIndex) := ⟨fun _ _ _ => keyLe2_trans⟩
  exact List.sorted_insertionSort (rowLe sIndex) l

theorem insertionSort_recLe_sorted (sIndex : List String) (l : List RecRow) :
    List.Sorted (recLe sIndex) (List.insertionSort (recLe sIndex) l) := by
  letI : IsTotal RecRow (recLe sIndex) :=
    ⟨fun a b => keyLe3_total (a.seed, idxIn a.uid sIndex, a.ds) (b.seed, idxIn b.uid sIndex, b.ds)⟩
  letI : IsTrans RecRow (recLe sIndex) := ⟨fun _ _ _ => keyLe3_trans⟩
  exact List.sorted_insertionSort (recLe sIndex) l

/-- The training frame inherits the canonical ordering from
`_sort_hier_df`: it is a filtered sublist of the sorted loaded frame. -/
theorem train_sorted (env : Env) (noise : Nat → Rat) :
    List.Sorted (rowLe env.sIndex) (splitOf env noise).1 := by
  have hload : List.Sorted (rowLe env.sIndex) (load_item_data env noise) :=
    addNoiseFrom_sorted env.sIndex noise 0 (sortHierDf_sorted env.sIndex env.storedRows)
  exact List.Pairwise.filter _ hload

/-- C5: the three frames returned by `run_baselines` are ordered by the
canonical series ordering of `S_df.index` (and by `ds` within a series);
the reconciled frame is additionally ordered by seed first. -/
theorem returned_frames_sorted (env : Env) (noise : Nat → Rat)
    (im item_id dataset : String) (fs : FS) (res : RunResult)
    (hrun : run_baselines env noise im item_id dataset fs = some res) :
    List.Sorted (rowLe env.sIndex) res.test
    ∧ List.Sorted (rowLe env.sIndex) res.train
    ∧ List.Sorted (recLe env.sIndex) res.recOut := by
  rcases run_some_cases env noise im item_id dataset fs res hrun with
    ⟨_, rfl⟩ | ⟨hrows, frows, _, _, rfl⟩
  · exact ⟨insertionSort_rowLe_sorted env.sIndex _, train_sorted env noise,
      insertionSort_recLe_sorted env.sIndex _⟩
  · exact ⟨insertionSort_rowLe_sorted env.sIndex _, train_sorted env noise,
      insertionSort_recLe_sorted env.sIndex _⟩

/-- Number of base-forecast rows for series `u` at date `d`. -/
def keyCount (u : String) (d : Nat) (l : List HatRow) : Nat :=
  (l.filter (fun r => r.uid == u && r.ds == d)).length

theorem bootstrap_reconcile_seeds (env : Env) (recs : List Reconciler)
    (im : String) (yhat yfitted : List HatRow) (numSamples numSeeds : Nat)
    (u : String) (d : Nat) (hcount : keyCount u d yhat = 1) :
    ((bootstrap_reconcile env recs im yhat yfitted numSamples numSeeds).filter
        (fun r => r.uid == u && r.ds == d)).map (fun r => r.seed)
      = List.range numSeeds := by
  rcases List.length_eq_one.mp hcount with ⟨r0, hr0⟩
  have hinner : ∀ s : Nat,
      ((yhat.map (fun r =>
          { seed := s, uid := r.uid, ds := r.ds,
            vals := env.recVals recs im yfitted numSamples s r.uid r.ds : RecRow })).filter
        (fun r => r.uid == u && r.ds == d)).map (fun r => r.seed) = [ s ] := by
    intro s
    rw [List.filter_map]
    have hpred : ((fun r : RecRow => r.uid == u && r.ds == d) ∘
        (fun r : HatRow =>
          { seed := s, uid := r.uid, ds := r.ds,
            vals := env.recVals recs im yfitted numSamples s r.uid r.ds : RecRow }))
        = (fun r : HatRow => r.uid == u && r.ds == d) := rfl
    rw [hpred, hr0]
    rfl
  unfold bootstrap_reconcile
  have houter : ∀ ss : List Nat,
      (((ss.flatMap (fun s =>
          yhat.map (fun r =>
            { seed := s, uid := r.uid, ds := r.ds,
              vals := env.recVals recs im yfitted numSamples s r.uid r.ds : RecRow }))).filter
        (fun r => r.uid == u && r.ds == d)).map (fun r => r.seed)) = ss := by
    intro ss
    induction ss with
    | nil => rfl
    | cons s ss ih =>
      rw [List.flatMap_cons, List.filter_append, List.map_append, hinner s, ih]
      rfl
  exact houter (List.range numSeeds)

/-- C6: `bootstrap_reconcile` is invoked with `num_seeds=10` and
`num_samples=10`, and for every (series, date) key of the base forecast
frame the reconciled output holds rows for exactly the 10 distinct seeds
0..9. -/
theorem reconciled_ten_seeds (env : Env) (noise : Nat → Rat)
    (im item_id dataset : String) (fs : FS) (res : RunResult)
    (hrun : run_baselines env noise im item_id dataset fs = some res) :
    res.numSeedsUsed = 10 ∧ res.numSamplesUsed = 10
    ∧ ∀ u d, keyCount u d res.hatUsed = 1 →
        List.Perm
          ((res.recOut.filter (fun r => r.uid == u && r.ds == d)).map (fun r => r.seed))
          (List.range 10) := by
  have main : ∀ hrows frows : List HatRow,
      ∀ u d, keyCount u d hrows = 1 →
        List.Perm
          (((recStage env im hrows frows).filter
              (fun r => r.uid == u && r.ds == d)).map (fun r => r.seed))
          (List.range 10) := by
    intro hrows frows u d hcount
    have hperm : List.Perm (recStage env im hrows frows)
        (bootstrap_reconcile env (selectReconcilers env.strictlyHier) im hrows frows 10 10) :=
      List.perm_insertionSort _ _
    have hfilter := hperm.filter (fun r => r.uid == u && r.ds == d)
    have hmap := hfilter.map (fun r => r.seed)
    rw [bootstrap_reconcile_seeds env (selectReconcilers env.strictlyHier) im hrows frows
      10 10 u d hcount] at hmap
    exact hmap
  rcases run_some_cases env noise im item_id dataset fs res hrun with
    ⟨_, rfl⟩ | ⟨hrows, frows, _, _, rfl⟩
  · exact ⟨rfl, rfl, main _ _⟩
  · exact ⟨rfl, rfl, main _ _⟩

/-- C7: the reconciled frame is written to the per-item path
`./data/dataset/item_id/intervals_method_rec.csv` and the written
contents equal the reconciled frame the run returns. -/
theorem rec_written_to_disk (env : Env) (noise : Nat → Rat)
    (im item_id dataset : String) (fs : FS) (res : RunResult)
    (hrun : run_baselines env noise im item_id dataset fs = some res) :
    lookupFS res.fs (yrecPath dataset item_id im) = some (FsFile.recF res.recOut) := by
  rcases run_some_cases env noise im item_id dataset fs res hrun with
    ⟨_, rfl⟩ | ⟨hrows, frows, _, _, rfl⟩
  · exact lookupFS_writeFS_self _ _ _
  · exact lookupFS_writeFS_self _ _ _

/-- No choice of `intervals_method` makes the reconciled-forecast path
collide with the cached base-forecast path. -/
theorem yhatPath_ne_yrecPath (dataset item_id im : String) :
    yhatPath dataset item_id ≠ yrecPath dataset item_id im := by
  intro h
  have hdata := congrArg String.data h
  simp only [yhatPath, yrecPath, String.data_append] at hdata
  have h1 : ("/" ++ "Y_hat.csv").data = ("/" ++ (im ++ "_rec.csv")).data :=
    List.append_cancel_left hdata
  simp only [String.data_append] at h1
  have h2 : ("Y_hat.csv").data = im.data ++ ("_rec.csv").data :=
    List.append_cancel_left h1
  have hlen : ("Y_hat.csv").data.length = im.data.length + ("_rec.csv").data.length := by
    rw [h2, List.length_append]
  have hlenY : ("Y_hat.csv").data.length = 9 := by decide
  have hlenR : ("_rec.csv").data.length = 8 := by decide
  have him : im.data.length = 1 := by omega
  have hsplit : ("Y_hat.csv").data = ("Y").data ++ ("_hat.csv").data := by decide
  rw [hsplit] at h2
  have hlen1 : im.data.length = ("Y").data.length := by rw [him]; decide
  have h3 := List.append_inj h2.symm hlen1
  exact absurd h3.2 (by decide)

theorem yfittedPath_ne_yrecPath (dataset item_id im : String) :
    yfittedPath dataset item_id ≠ yrecPath dataset item_id im := by
  intro h
  have hdata := congrArg String.data h
  simp only [yfittedPath, yrecPath, String.data_append] at hdata
  have h1 : ("/" ++ "Y_fitted.csv").data = ("/" ++ (im ++ "_rec.csv")).data :=
    List.append_cancel_left hdata
  simp only [String.data_append] at h1
  have h2 : ("Y_fitted.csv").data = im.data ++ ("_rec.csv").data :=
    List.append_cancel_left h1
  have hlen : ("Y_fitted.csv").data.length = im.data.length + ("_rec.csv").data.length := by
    rw [h2, List.length_append]
  have hlenY : ("Y_fitted.csv").data.length = 12 := by decide
  have hlenR : ("_rec.csv").data.length = 8 := by decide
  have him : im.data.length = 4 := by omega
  have hsplit : ("Y_fitted.csv").data = ("Y_fi").data ++ ("tted.csv").data := by decide
  rw [hsplit] at h2
  have hlen1 : im.data.length = ("Y_fi").data.length := by rw [him]; decide
  have h3 := List.append_inj h2.symm hlen1
  exact absurd h3.2 (by decide)

/-- C10: with a warm cache, a run only reads the cached base-forecast
files: every path other than the written reconciliation output is
unchanged, in particular `Y_hat.csv` and `Y_fitted.csv`; and runs that
differ only in `intervals_method` use the same base forecasts and fitted
values. -/
theorem cache_untouched_and_im_independent (env : Env) (noise : Nat → Rat)
    (im1 im2 item_id dataset : String) (fs : FS) (res1 res2 : RunResult)
    (hrows : List HatRow)
    (hhat : lookupFS fs (yhatPath dataset item_id) = some (FsFile.hatF hrows))
    (hrun1 : run_baselines env noise im1 item_id dataset fs = some res1)
    (hrun2 : run_baselines env noise im2 item_id dataset fs = some res2) :
    (∀ p, p ≠ yrecPath dataset item_id im1 → lookupFS res1.fs p = lookupFS fs p)
    ∧ lookupFS res1.fs (yhatPath dataset item_id) = lookupFS fs (yhatPath dataset item_id)
    ∧ lookupFS res1.fs (yfittedPath dataset item_id)
        = lookupFS fs (yfittedPath dataset item_id)
    ∧ res1.hatUsed = res2.hatUsed
    ∧ res1.fittedUsed = res2.fittedUsed := by
  rcases run_some_cases env noise im1 item_id dataset fs res1 hrun1 with
    ⟨hnone, _⟩ | ⟨hrows1, frows1, hlook1, hfit1, hres1⟩
  · rw [hnone] at hhat; exact absurd hhat (by simp)
  rcases run_some_cases env noise im2 item_id dataset fs res2 hrun2 with
    ⟨hnone, _⟩ | ⟨hrows2, frows2, hlook2, hfit2, hres2⟩
  · rw [hnone] at hhat; exact absurd hhat (by simp)
  have hfr : frows1 = frows2 := by
    rw [hfit1] at hfit2
    have := Option.some.inj hfit2
    cases this
    rfl
  have hhr : hrows1 = hrows2 := by
    rw [hlook1] at hlook2
    have := Option.some.inj hlook2
    cases this
    rfl
  have hunch : ∀ p, p ≠ yrecPath dataset item_id im1 →
      lookupFS res1.fs p = lookupFS fs p := by
    intro p hp
    rw [hres1]
    exact lookupFS_writeFS_ne fs (yrecPath dataset item_id im1) p _ hp
  refine ⟨hunch, ?_, ?_, ?_, ?_⟩
  · exact hunch _ (yhatPath_ne_yrecPath dataset item_id im1)
  · exact hunch _ (yfittedPath_ne_yrecPath dataset item_id im1)
  · rw [hres1, hres2, hhr]
    rfl
  · rw [hres1, hres2, hfr]
    rfl

/-- C8: the module-level asserts validate the parameters before any
experiment: an invalid `intervals_method` or `dataset` stops the script
with the corresponding AssertionError and no run is performed. -/
theorem script_asserts_guard (env : Env) (noiseFor : String → Nat → Rat)
    (im dataset : String) (items : List String) (fs : FS) :
    (im ∉ validIntervalsMethods →
      scriptMain env noiseFor im dataset items fs = Except.error intervalsAssertMsg)
    ∧ (im ∈ validIntervalsMethods → dataset ∉ availableDatasets →
      scriptMain env noiseFor im dataset items fs = Except.error datasetAssertMsg) := by
  constructor
  · intro him
    simp [scriptMain, him]
  · intro him hds
    simp [scriptMain, him, hds]

/-- The noise-independent content of a row: index label, series id and
date. -/
def stripY (r : LRow) : Nat × String × Nat :=
  (r.label, r.uid, r.ds)

/-- C9: `load_item_data` adds the freshly drawn noise to every stored
observation: the returned `y` column equals the stored (sorted)
observations plus the draw, pointwise; the rows and their ordering do not
depend on the draw; and any two draws differing at a position produce
frames whose `y` values differ there. -/
theorem load_item_data_noise (env : Env) (n n1 n2 : Nat → Rat) :
    ((load_item_data env n).map stripY
        = (sortHierDf env.sIndex env.storedRows).map stripY)
    ∧ (∀ j (hj : j < (load_item_data env n).length),
        ((load_item_data env n).get ⟨j, hj⟩).y
          = ((sortHierDf env.sIndex env.storedRows).get
              ⟨j, by simpa [load_item_data, addNoise, addNoiseFrom_length] using hj⟩).y
            + n j)
    ∧ ((load_item_data env n1).map stripY = (load_item_data env n2).map stripY)
    ∧ (∀ j (hj1 : j < (load_item_data env n1).length)
          (hj2 : j < (load_item_data env n2).length),
        n1 j ≠ n2 j →
        ((load_item_data env n1).get ⟨j, hj1⟩).y
          ≠ ((load_item_data env n2).get ⟨j, hj2⟩).y) := by
  have hget : ∀ (m : Nat → Rat) (j : Nat) (hj : j < (load_item_data env m).length),
      ((load_item_data env m).get ⟨j, hj⟩).y
        = ((sortHierDf env.sIndex env.storedRows).get
            ⟨j, by simpa [load_item_data, addNoise, addNoiseFrom_length] using hj⟩).y
          + m j := by
    intro m j hj
    have := addNoiseFrom_get m 0 (sortHierDf env.sIndex env.storedRows) j hj
    simp only [load_item_data, addNoise] at *
    rw [this]
    simp [Nat.zero_add]
  have hstrip : ∀ m : Nat → Rat,
      (load_item_data env m).map stripY
        = (sortHierDf env.sIndex env.storedRows).map stripY := by
    intro m
    exact addNoiseFrom_strip m 0 (sortHierDf env.sIndex env.storedRows)
  refine ⟨hstrip n, hget n, (hstrip n1).trans (hstrip n2).symm, ?_⟩
  intro j hj1 hj2 hne heq
  rw [hget n1 j hj1, hget n2 j hj2] at heq
  exact hne (add_left_cancel heq)

/-- The distinct series the `StatsForecast` call of a run would fit one
model for (StatsForecast fits per `unique_id` of its input frame), when
the fitting branch ran. -/
def fitSeries (res : RunResult) : Option (List String) :=
  res.fitCall.map (fun c => uidsOf c.df)

/-- C4 (amended): when the fitting branch runs, the `StatsForecast` call
is applied to the whole training frame — one AutoARIMA model per series
appearing there, across all aggregation levels, not only the bottom
level — with Naive as the fallback model. -/
theorem fit_applied_to_training_frame (env : Env) (noise : Nat → Rat)
    (im item_id dataset : String) (fs : FS) (res : RunResult)
    (hrun : run_baselines env noise im item_id dataset fs = some res)
    (hfit : res.didFit = true) :
    res.fitCall = some
      { df := res.train,
        models := [ SfModel.autoARIMA env.seasonality ],
        fallback := [ SfModel.naive ],
        h := env.horizon }
    ∧ fitSeries res = some (uidsOf res.train) := by
  rcases run_some_cases env noise im item_id dataset fs res hrun with
    ⟨_, rfl⟩ | ⟨hrows, frows, _, _, rfl⟩
  · exact ⟨rfl, rfl⟩
  · exact absurd hfit (by simp [cacheHitResult])

def uidTotal : String := "total"
def uidB1 : String := "b1"
def uidB2 : String := "b2"
def item4 : String := "1916577"
def dataset4 : String := "Favorita200"

/-- A concrete environment whose observation frame spans an aggregate
series (`total`) in addition to the two bottom series, as the Favorita
frames do (the notebook prints `n_series` versus `n_bottom` and feeds
base forecasts for every row of `S_df` to the reconcilers). -/
def env4 : Env :=
  { storedRows :=
      [ ⟨0, uidTotal, 0, 4⟩, ⟨1, uidTotal, 1, 4⟩,
        ⟨2, uidB1, 0, 2⟩, ⟨3, uidB1, 1, 2⟩,
        ⟨4, uidB2, 0, 2⟩, ⟨5, uidB2, 1, 2⟩ ],
    sIndex := [ uidTotal, uidB1, uidB2 ],
    sCols := [ uidB1, uidB2 ],
    horizon := 1,
    seasonality := 7,
    strictlyHier := true,
    forecastFn := fun _ _ => [],
    fittedFn := fun _ => [],
    recVals := fun _ _ _ _ _ _ _ => [] }

def noise4 : Nat → Rat := fun _ => 0

/-- C4 counterexample: on a frame containing the aggregate series
`total`, the fitting step is applied to `total` as well — the fitted
series are not the bottom-level columns of the summation matrix, so the
fitting is not restricted to bottom-level series. -/
theorem fit_bottom_only_counterexample :
    (run_baselines env4 noise4 bootstrapStr item4 dataset4 []).map fitSeries
      = some (some [ uidTotal, uidB1, uidB2 ])
    ∧ ([ uidTotal, uidB1, uidB2 ] : List String) ≠ env4.sCols
    ∧ uidTotal ∉ env4.sCols := by
  refine ⟨?_, by decide, by decide⟩
  rw [run_baselines_cacheMiss env4 noise4 bootstrapStr item4 dataset4 [] rfl]
  decide

def noiseB : Nat → Rat := fun _ => 1

def hat10 : List HatRow :=
  [ ⟨uidTotal, 5, []⟩, ⟨uidB1, 5, []⟩, ⟨uidB2, 5, []⟩ ]

def fit10 : List HatRow := []

def fs10 : FS :=
  [ (yhatPath dataset4 item4, FsFile.hatF hat10),
    (yfittedPath dataset4 item4, FsFile.fitF fit10) ]

def gaussianStr : String := "gaussian"
def m5Str : String := "M5"

theorem trainTestSplit_correct_witness : SplitSpec 1 env4.storedRows :=
  trainTestSplit_correct 1 env4.storedRows (by decide) (by decide)

theorem fit_iff_cache_missing_witness :
    ((cacheMissResult env4 noise4 bootstrapStr item4 dataset4 []).didFit = true
        ↔ lookupFS [] (yhatPath dataset4 item4) = none)
    ∧ (∀ hrows frows,
        lookupFS [] (yhatPath dataset4 item4) = some (FsFile.hatF hrows) →
        lookupFS [] (yfittedPath dataset4 item4) = some (FsFile.fitF frows) →
        (cacheMissResult env4 noise4 bootstrapStr item4 dataset4 []).hatUsed = hrows
        ∧ (cacheMissResult env4 noise4 bootstrapStr item4 dataset4 []).fittedUsed = frows
        ∧ (cacheMissResult env4 noise4 bootstrapStr item4 dataset4 []).didFit = false) :=
  fit_iff_cache_missing env4 noise4 bootstrapStr item4 dataset4 []
    (cacheMissResult env4 noise4 bootstrapStr item4 dataset4 [])
    (run_baselines_cacheMiss env4 noise4 bootstrapStr item4 dataset4 [] rfl)

theorem reconcilers_depend_only_on_strictness_witness :
    (cacheMissResult env4 noise4 bootstrapStr item4 dataset4 []).reconcilers
        = selectReconcilers env4.strictlyHier
    ∧ selectReconcilers true
        = [ Reconciler.bottomUp,
            Reconciler.topDown avgPropStr,
            Reconciler.topDown propAvgStr,
            Reconciler.minTrace olsStr none,
            Reconciler.minTrace mintShrinkStr (some (1 / 1000000)),
            Reconciler.erm closedStr ]
    ∧ selectReconcilers false
        = [ Reconciler.bottomUp,
            Reconciler.minTrace olsStr none,
            Reconciler.minTrace mintShrinkStr (some (1 / 1000000)),
            Reconciler.erm closedStr ]
    ∧ selectReconcilers false
        = (selectReconcilers true).filter (fun r => !(isTopDownRec r)) :=
  reconcilers_depend_only_on_strictness env4 noise4 bootstrapStr item4 dataset4 []
    (cacheMissResult env4 noise4 bootstrapStr item4 dataset4 [])
    (run_baselines_cacheMiss env4 noise4 bootstrapStr item4 dataset4 [] rfl)

theorem fit_applied_to_training_frame_witness :
    (cacheMissResult env4 noise4 bootstrapStr item4 dataset4 []).fitCall = some
      { df := (cacheMissResult env4 noise4 bootstrapStr item4 dataset4 []).train,
        models := [ SfModel.autoARIMA env4.seasonality ],
        fallback := [ SfModel.naive ],
        h := env4.horizon }
    ∧ fitSeries (cacheMissResult env4 noise4 bootstrapStr item4 dataset4 [])
        = some (uidsOf (cacheMissResult env4 noise4 bootstrapStr item4 dataset4 []).train) :=
  fit_applied_to_training_frame env4 noise4 bootstrapStr item4 dataset4 []
    (cacheMissResult env4 noise4 bootstrapStr item4 dataset4 [])
    (run_baselines_cacheMiss env4 noise4 bootstrapStr item4 dataset4 [] rfl) rfl

theorem returned_frames_sorted_witness :
    List.Sorted (rowLe env4.sIndex)
        (cacheMissResult env4 noise4 bootstrapStr item4 dataset4 []).test
    ∧ List.Sorted (rowLe env4.sIndex)
        (cacheMissResult env4 noise4 bootstrapStr item4 dataset4 []).train
    ∧ List.Sorted (recLe env4.sIndex)
        (cacheMissResult env4 noise4 bootstrapStr item4 dataset4 []).recOut :=
  returned_frames_sorted env4 noise4 bootstrapStr item4 dataset4 []
    (cacheMissResult env4 noise4 bootstrapStr item4 dataset4 [])
    (run_baselines_cacheMiss env4 noise4 bootstrapStr item4 dataset4 [] rfl)

theorem reconciled_ten_seeds_witness :
    ((cacheHitResult env4 noise4 bootstrapStr item4 dataset4 fs10 hat10 fit10).numSeedsUsed = 10
    ∧ (cacheHitResult env4 noise4 bootstrapStr item4 dataset4 fs10 hat10 fit10).numSamplesUsed = 10
    ∧ ∀ u d,
        keyCount u d (cacheHitResult env4 noise4 bootstrapStr item4 dataset4 fs10 hat10 fit10).hatUsed = 1 →
        List.Perm
          (((cacheHitResult env4 noise4 bootstrapStr item4 dataset4 fs10 hat10 fit10).recOut.filter
              (fun r => r.uid == u && r.ds == d)).map (fun r => r.seed))
          (List.range 10))
    ∧ List.Perm
        (((cacheHitResult env4 noise4 bootstrapStr item4 dataset4 fs10 hat10 fit10).recOut.filter
            (fun r => r.uid == uidTotal && r.ds == 5)).map (fun r => r.seed))
        (List.range 10) := by
  have h := reconciled_ten_seeds env4 noise4 bootstrapStr item4 dataset4 fs10
    (cacheHitResult env4 noise4 bootstrapStr item4 dataset4 fs10 hat10 fit10)
    (run_baselines_cacheHit env4 noise4 bootstrapStr item4 dataset4 fs10 hat10 fit10
      (by decide) (by decide))
  exact ⟨h, h.2.2 uidTotal 5 (by decide)⟩

theorem rec_written_to_disk_witness :
    lookupFS (cacheMissResult env4 noise4 bootstrapStr item4 dataset4 []).fs
        (yrecPath dataset4 item4 bootstrapStr)
      = some (FsFile.recF (cacheMissResult env4 noise4 bootstrapStr item4 dataset4 []).recOut) :=
  rec_written_to_disk env4 noise4 bootstrapStr item4 dataset4 []
    (cacheMissResult env4 noise4 bootstrapStr item4 dataset4 [])
    (run_baselines_cacheMiss env4 noise4 bootstrapStr item4 dataset4 [] rfl)

theorem script_asserts_guard_witness :
    scriptMain env4 (fun _ => noise4) gaussianStr dataset4 [] []
        = Except.error intervalsAssertMsg
    ∧ scriptMain env4 (fun _ => noise4) bootstrapStr m5Str [] []
        = Except.error datasetAssertMsg :=
  ⟨(script_asserts_guard env4 (fun _ => noise4) gaussianStr dataset4 [] []).1 (by decide),
   (script_asserts_guard env4 (fun _ => noise4) bootstrapStr m5Str [] []).2
     (by decide) (by decide)⟩

theorem load_item_data_noise_witness :
    ((load_item_data env4 noise4).get ⟨0, by decide⟩).y
      ≠ ((load_item_data env4 noiseB).get ⟨0, by decide⟩).y :=
  (load_item_data_noise env4 noise4 noise4 noiseB).2.2.2 0 (by decide) (by decide) (by decide)

theorem cache_untouched_and_im_independent_witness :
    (∀ p, p ≠ yrecPath dataset4 item4 bootstrapStr →
        lookupFS (cacheHitResult env4 noise4 bootstrapStr item4 dataset4 fs10 hat10 fit10).fs p
          = lookupFS fs10 p)
    ∧ lookupFS (cacheHitResult env4 noise4 bootstrapStr item4 dataset4 fs10 hat10 fit10).fs
          (yhatPath dataset4 item4)
        = lookupFS fs10 (yhatPath dataset4 item4)
    ∧ lookupFS (cacheHitResult env4 noise4 bootstrapStr item4 dataset4 fs10 hat10 fit10).fs
          (yfittedPath dataset4 item4)
        = lookupFS fs10 (yfittedPath dataset4 item4)
    ∧ (cacheHitResult env4 noise4 bootstrapStr item4 dataset4 fs10 hat10 fit10).hatUsed
        = (cacheHitResult env4 noise4 normalityStr item4 dataset4 fs10 hat10 fit10).hatUsed
    ∧ (cacheHitResult env4 noise4 bootstrapStr item4 dataset4 fs10 hat10 fit10).fittedUsed
        = (cacheHitResult env4 noise4 normalityStr item4 dataset4 fs10 hat10 fit10).fittedUsed :=
  cache_untouched_and_im_independent env4 noise4 bootstrapStr normalityStr item4 dataset4 fs10
    (cacheHitResult env4 noise4 bootstrapStr item4 dataset4 fs10 hat10 fit10)
    (cacheHitResult env4 noise4 normalityStr item4 dataset4 fs10 hat10 fit10)
    hat10 (by decide)
    (run_baselines_cacheHit env4 noise4 bootstrapStr item4 dataset4 fs10 hat10 fit10
      (by decide) (by decide))
    (run_baselines_cacheHit env4 noise4 normalityStr item4 dataset4 fs10 hat10 fit10
      (by decide) (by decide))

end Favorita
